import Mathlib

/-!
Shallow embedding of the FinTech API Referee scoring engine and verdict
generator (source: models.py).  Python floats are modelled as `ℚ`,
Python lists as `List`, the `pricing` dict (queried with
`dict.get(key, False)`) as a total Boolean function on `BudgetTier`,
and the `rate_limits` dict as an association list.  Logging and timing
instrumentation in the source never influences returned values and is
dropped, except where a claim is about it (see `score_apis_run`).
-/

set_option maxRecDepth 100000

namespace FinRef

/-- models.py `BudgetTier`. -/
inductive BudgetTier
  | FREE
  | UNDER_50
  | UNDER_200
  | ENTERPRISE
deriving DecidableEq

/-- models.py `BudgetTier` `.value` strings. -/
def BudgetTier.value : BudgetTier → String
  | .FREE => "Free"
  | .UNDER_50 => "Under $50/month"
  | .UNDER_200 => "Under $200/month"
  | .ENTERPRISE => "Enterprise"

/-- models.py `DataType`. -/
inductive DataType
  | STOCKS
  | CRYPTO
  | FOREX
  | OPTIONS
  | COMMODITIES
deriving DecidableEq

/-- models.py `DataType` `.value` strings. -/
def DataType.value : DataType → String
  | .STOCKS => "Stocks"
  | .CRYPTO => "Crypto"
  | .FOREX => "Forex"
  | .OPTIONS => "Options"
  | .COMMODITIES => "Commodities"

/-- models.py `FrequencyTier`. -/
inductive FrequencyTier
  | REALTIME
  | DELAYED
  | EOD
  | HISTORICAL
deriving DecidableEq

/-- models.py `UseCase`. -/
inductive UseCase
  | RESEARCH
  | TRADING_BOT
  | PORTFOLIO
  | EDUCATIONAL
deriving DecidableEq

/-- models.py `UserConstraints`. -/
structure UserConstraints where
  budget : BudgetTier
  data_types : List DataType
  frequency : FrequencyTier
  use_case : UseCase

/-- models.py `APIInfo`.  The `last_updated` timestamp is omitted: no
function in the source reads it.  `pricing` models `dict.get(tier, False)`
as a total function. -/
structure APIInfo where
  name : String
  pricing : BudgetTier → Bool
  data_coverage : List DataType
  frequency_support : List FrequencyTier
  rate_limits : List (String × Int)
  strengths : List String
  limitations : List String
  tos_restrictions : List String
  reliability_score : ℚ

/-- The four entries of the `category_scores` dict built by
`calculate_category_scores` (its key set is fixed in the source). -/
structure CategoryScores where
  budget : ℚ
  data_types : ℚ
  frequency : ℚ
  use_case : ℚ
deriving DecidableEq

/-- models.py `APIScore`. -/
structure APIScore where
  api : APIInfo
  total_score : ℚ
  category_scores : CategoryScores
  compatibility_percentage : ℤ
  recommendation_rank : ℕ

/-- models.py `Verdict`. -/
structure Verdict where
  recommendation_text : String
  trade_offs : List String
  next_steps : List String
  alternative_api : String
  alternative_reason : String

/-! ### String helpers (Python `str.lower`, substring `in`, `" ".join`) -/

/-- ASCII lower-casing of one character, as Python `str.lower` acts on the
ASCII strings of this code base. -/
def lowerChar (ch : Char) : Char :=
  if 65 ≤ ch.toNat ∧ ch.toNat ≤ 90 then Char.ofNat (ch.toNat + 32) else ch

/-- Character list of `s.lower()`. -/
def lowerStr (s : String) : List Char := s.data.map lowerChar

/-- Python `kw in s.lower()` (case-insensitive substring test used by the
ToS / limitation keyword scans). -/
def containsKeyword (s kw : String) : Bool := decide (kw.data <:+: lowerStr s)

/-- `sub` occurs in `s` as a literal substring (Python `sub in s`). -/
def ContainsStr (s sub : String) : Prop := sub.data <:+: s.data

instance (s sub : String) : Decidable (ContainsStr s sub) := by
  unfold ContainsStr; infer_instance

/-- Python `" ".join(parts)`. -/
def joinWithSpace : List String → String
  | [] => ""
  | [p] => p
  | p :: q :: rest => p ++ " " ++ joinWithSpace (q :: rest)

/-- Python `int(...)` on a float: truncation toward zero. -/
def truncInt (q : ℚ) : ℤ := if 0 ≤ q then ⌊q⌋ else ⌈q⌉

/-! ### Scoring engine (models.py lines 98-332) -/

/-- models.py `SCORING_WEIGHTS` (budget, data_types, frequency, use_case). -/
def SCORING_WEIGHTS : CategoryScores :=
  { budget := 3/10, data_types := 3/10, frequency := 1/4, use_case := 3/20 }

/-- models.py `score_budget_compatibility`. -/
def score_budget_compatibility (api : APIInfo) (c : UserConstraints) : ℚ :=
  if api.pricing c.budget then 100 else 0

/-- models.py `score_data_type_coverage`. -/
def score_data_type_coverage (api : APIInfo) (c : UserConstraints) : ℚ :=
  if c.data_types = [] then 100
  else ((c.data_types.countP (fun dt => dt ∈ api.data_coverage) : ℚ) /
        (c.data_types.length : ℚ)) * 100

/-- models.py `score_frequency_availability`. -/
def score_frequency_availability (api : APIInfo) (c : UserConstraints) : ℚ :=
  if c.frequency ∈ api.frequency_support then 100 else 0

/-- models.py keyword list `commercial_restricted_keywords` inside
`score_use_case_suitability`. -/
def commercial_restricted_keywords : List String :=
  ["commercial use explicitly prohibited",
   "non-commercial use only",
   "personal/educational use only",
   "free tier for non-commercial use only"]

/-- models.py keyword list `commercial_allowed_keywords` inside
`score_use_case_suitability`. -/
def commercial_allowed_keywords : List String :=
  ["commercial use allowed", "commercial use included"]

/-- models.py `score_use_case_suitability`.  The source's nested for-loops
with early `return` are the `List.any` scans below (every match returns the
same constant, so first-match and any-match coincide). -/
def score_use_case_suitability (api : APIInfo) (c : UserConstraints) : ℚ :=
  if c.use_case = UseCase.TRADING_BOT then
    if api.tos_restrictions.any
        (fun r => commercial_restricted_keywords.any (fun kw => containsKeyword r kw)) then 25
    else if api.tos_restrictions.any
        (fun r => commercial_allowed_keywords.any (fun kw => containsKeyword r kw)) then 100
    else 75
  else 100

/-- models.py `calculate_category_scores`. -/
def calculate_category_scores (api : APIInfo) (c : UserConstraints) : CategoryScores :=
  { budget := score_budget_compatibility api c,
    data_types := score_data_type_coverage api c,
    frequency := score_frequency_availability api c,
    use_case := score_use_case_suitability api c }

/-- models.py `calculate_total_score` at the default `SCORING_WEIGHTS`
(the only weights the program ever passes). -/
def calculate_total_score (cs : CategoryScores) : ℚ :=
  cs.budget * (3/10) + cs.data_types * (3/10) + cs.frequency * (1/4) + cs.use_case * (3/20)

/-- Python `round` (round-half-to-even, as on floats). -/
def pyRound (q : ℚ) : ℤ :=
  if q - ⌊q⌋ < 1/2 then ⌊q⌋
  else if 1/2 < q - ⌊q⌋ then ⌊q⌋ + 1
  else if ⌊q⌋ % 2 = 0 then ⌊q⌋ else ⌊q⌋ + 1

/-- models.py `calculate_compatibility_percentage`:
`max(0, min(100, int(round(total_score))))`. -/
def calculate_compatibility_percentage (total_score : ℚ) : ℤ :=
  max 0 (min 100 (pyRound total_score))

/-- The APIScore built for one catalog entry in the loop of `score_apis`
(recommendation_rank starts at 0, set after sorting). -/
def scoreOne (c : UserConstraints) (api : APIInfo) : APIScore :=
  let cs := calculate_category_scores api c
  let total := calculate_total_score cs
  { api := api,
    total_score := total,
    category_scores := cs,
    compatibility_percentage := calculate_compatibility_percentage total,
    recommendation_rank := 0 }

/-- One step of the stable descending sort: place `x` after every element
whose key is ≥ its own and before the first strictly smaller one. -/
def insertDescBy {α : Type} (key : α → ℚ) (x : α) : List α → List α
  | [] => [x]
  | y :: ys => if key y < key x then x :: y :: ys else y :: insertDescBy key x ys

/-- Stable descending sort by a rational key, modelling Python
`list.sort(key=..., reverse=True)` (Timsort is stable; any stable sort
computes the same list). -/
def sortDescBy {α : Type} (key : α → ℚ) (l : List α) : List α :=
  l.foldl (fun acc x => insertDescBy key x acc) []

/-- The rank-assignment loop `for rank, s in enumerate(scored, start=1)`. -/
def assignRanks : List APIScore → ℕ → List APIScore
  | [], _ => []
  | s :: rest, n => { s with recommendation_rank := n } :: assignRanks rest (n + 1)

/-- models.py `score_apis`, with the per-entry scoring abstracted as a
function `f` that returns `none` when scoring that entry raises (the
source catches the exception and `continue`s).  If no entry scored, the
source raises `ValueError` (modelled as `Except.error`); otherwise it
sorts by total score descending (stable) and assigns ranks 1..N. -/
def score_apis_core (f : APIInfo → Option APIScore) (apis : List APIInfo) :
    Except String (List APIScore) :=
  let scored := apis.filterMap f
  if scored.isEmpty then
    Except.error "Unable to score any APIs - all scoring attempts failed"
  else
    Except.ok (assignRanks (sortDescBy (fun s => s.total_score) scored) 1)

/-- `score_apis` on well-typed records: every entry scores (the per-entry
`try` never fires, since category scoring is total on `APIInfo`). -/
def score_apis (c : UserConstraints) (apis : List APIInfo) :
    Except String (List APIScore) :=
  score_apis_core (fun a => some (scoreOne c a)) apis

/-- `score_apis` with the `time.time()` reads made explicit: `clock n` is
the value of the n-th read.  In the source those reads feed only log
messages, so the returned value ignores them. -/
def score_apis_run (clock : ℕ → ℚ) (c : UserConstraints) (apis : List APIInfo) :
    Except String (List APIScore) :=
  let start_time := clock 0
  let result := score_apis_core (fun a => some (scoreOne c a)) apis
  let sort_time := clock 1
  let total_time := clock 2
  result

/-! ### The built-in catalog (models.py `get_all_apis`) -/

/-- models.py catalog entry "Alpha Vantage". -/
def alphaVantage : APIInfo :=
  { name := "Alpha Vantage",
    pricing := fun _ => true,
    data_coverage := [.STOCKS, .CRYPTO, .FOREX, .COMMODITIES],
    frequency_support := [.REALTIME, .DELAYED, .EOD, .HISTORICAL],
    rate_limits := [("requests_per_minute", 5), ("requests_per_day", 500)],
    strengths :=
      ["Generous free tier with 500 requests/day",
       "Excellent documentation and community support",
       "Wide data coverage including stocks, crypto, forex",
       "Technical indicators built-in",
       "Stable and reliable service"],
    limitations :=
      ["Strict rate limits on free tier (5 req/min)",
       "No options data available",
       "Real-time data requires premium subscription",
       "Limited historical depth on free tier"],
    tos_restrictions :=
      ["Attribution required for free tier usage",
       "Commercial use allowed with proper licensing",
       "No redistribution of raw data without permission"],
    reliability_score := 85/100 }

/-- models.py catalog entry "Polygon.io". -/
def polygonIo : APIInfo :=
  { name := "Polygon.io",
    pricing := fun _ => true,
    data_coverage := [.STOCKS, .CRYPTO, .FOREX, .OPTIONS],
    frequency_support := [.REALTIME, .DELAYED, .EOD, .HISTORICAL],
    rate_limits := [("requests_per_minute", 5), ("requests_per_day", 1000)],
    strengths :=
      ["Institutional-grade data quality",
       "Excellent real-time streaming capabilities",
       "Comprehensive options data",
       "WebSocket support for live data",
       "Strong API design and documentation"],
    limitations :=
      ["Free tier has limited features",
       "Premium pricing for full real-time access",
       "Some advanced features require enterprise plan",
       "Learning curve for WebSocket integration"],
    tos_restrictions :=
      ["Free tier for personal/non-commercial use only",
       "Commercial use requires paid subscription",
       "Data redistribution prohibited without license",
       "Must comply with exchange data policies"],
    reliability_score := 92/100 }

/-- models.py catalog entry "Yahoo Finance". -/
def yahooFinance : APIInfo :=
  { name := "Yahoo Finance",
    pricing := fun b => b = BudgetTier.FREE,
    data_coverage := [.STOCKS, .CRYPTO, .FOREX, .OPTIONS, .COMMODITIES],
    frequency_support := [.DELAYED, .EOD, .HISTORICAL],
    rate_limits := [("requests_per_minute", 100), ("requests_per_day", 2000)],
    strengths :=
      ["Completely free to use",
       "Wide coverage of global markets",
       "Good historical data depth",
       "Options chain data available",
       "Easy to use with yfinance library"],
    limitations :=
      ["Unofficial API - may break without notice",
       "No official support or SLA",
       "Data quality can be inconsistent",
       "No real-time data available",
       "Rate limiting can be unpredictable"],
    tos_restrictions :=
      ["Commercial use explicitly prohibited",
       "No redistribution allowed",
       "Personal/educational use only",
       "Terms may change without notice",
       "Scraping may violate TOS"],
    reliability_score := 60/100 }

/-- models.py catalog entry "Finnhub". -/
def finnhub : APIInfo :=
  { name := "Finnhub",
    pricing := fun _ => true,
    data_coverage := [.STOCKS, .CRYPTO, .FOREX],
    frequency_support := [.REALTIME, .DELAYED, .EOD, .HISTORICAL],
    rate_limits := [("requests_per_minute", 60), ("requests_per_day", 1500)],
    strengths :=
      ["Strong alternative data (news, sentiment)",
       "Good free tier with 60 req/min",
       "Real-time WebSocket support",
       "Company fundamentals and financials",
       "Developer-friendly API design"],
    limitations :=
      ["No options data",
       "No commodities data",
       "Limited historical depth on free tier",
       "Some features US-market focused"],
    tos_restrictions :=
      ["Free tier allows commercial use with attribution",
       "Data redistribution requires enterprise license",
       "Must display Finnhub attribution in apps"],
    reliability_score := 88/100 }

/-- models.py catalog entry "EODHD". -/
def eodhd : APIInfo :=
  { name := "EODHD",
    pricing := fun _ => true,
    data_coverage := [.STOCKS, .CRYPTO, .FOREX, .OPTIONS, .COMMODITIES],
    frequency_support := [.DELAYED, .EOD, .HISTORICAL],
    rate_limits := [("requests_per_minute", 20), ("requests_per_day", 1000)],
    strengths :=
      ["Excellent historical data (30+ years)",
       "Global market coverage (70+ exchanges)",
       "Comprehensive fundamental data",
       "Good value for price",
       "Options and commodities included"],
    limitations :=
      ["No real-time streaming data",
       "API can be slower than competitors",
       "Documentation could be improved",
       "Limited free tier features"],
    tos_restrictions :=
      ["Commercial use allowed on paid plans",
       "Free tier for evaluation only",
       "Data redistribution requires special license",
       "Must comply with exchange agreements"],
    reliability_score := 82/100 }

/-- models.py catalog entry "Quandl". -/
def quandl : APIInfo :=
  { name := "Quandl",
    pricing := fun b => b = BudgetTier.UNDER_200 ∨ b = BudgetTier.ENTERPRISE,
    data_coverage := [.STOCKS, .FOREX, .COMMODITIES],
    frequency_support := [.EOD, .HISTORICAL],
    rate_limits := [("requests_per_minute", 300), ("requests_per_day", 50000)],
    strengths :=
      ["Premium institutional-grade data",
       "Extensive alternative datasets",
       "High data quality and accuracy",
       "Excellent for quantitative research",
       "Strong data governance and compliance"],
    limitations :=
      ["No free tier available",
       "Premium pricing (starts ~$100/month)",
       "No real-time data",
       "No crypto data",
       "No options data"],
    tos_restrictions :=
      ["Commercial use included in subscription",
       "Data redistribution strictly prohibited",
       "Must comply with Nasdaq data policies",
       "Audit rights reserved by provider"],
    reliability_score := 95/100 }

/-- models.py catalog entry "Marketstack". -/
def marketstack : APIInfo :=
  { name := "Marketstack",
    pricing := fun _ => true,
    data_coverage := [.STOCKS],
    frequency_support := [.DELAYED, .EOD, .HISTORICAL],
    rate_limits := [("requests_per_minute", 10), ("requests_per_day", 100)],
    strengths :=
      ["Simple REST API design",
       "Good for beginners",
       "Global stock market coverage",
       "Easy integration",
       "Clear documentation"],
    limitations :=
      ["Stocks only - no crypto, forex, options",
       "Very limited free tier (100 req/day)",
       "No real-time data",
       "Basic feature set compared to competitors",
       "Limited technical indicators"],
    tos_restrictions :=
      ["Free tier for non-commercial use only",
       "Commercial use requires paid plan",
       "No data redistribution",
       "Attribution appreciated but not required"],
    reliability_score := 78/100 }

/-- models.py `get_all_apis`. -/
def get_all_apis : List APIInfo :=
  [alphaVantage, polygonIo, yahooFinance, finnhub, eodhd, quandl, marketstack]

/-! ### Fallback path (models.py `get_fallback_recommendations`) -/

/-- The `data_compatible` check of the fallback loop:
`any(dt in api.data_coverage for dt in constraints.data_types)`. -/
def dataCompatible (c : UserConstraints) (api : APIInfo) : Bool :=
  c.data_types.any (fun dt => dt ∈ api.data_coverage)

/-- The catalog entries that survive the fallback loop's
budget-and-data compatibility filter (entries failing it hit `continue`). -/
def fallbackPassing (c : UserConstraints) : List APIInfo :=
  get_all_apis.filter (fun api => api.pricing c.budget && dataCompatible c api)

/-- The APIScore the fallback loop appends for a surviving entry. -/
def fallbackScoreOf (c : UserConstraints) (api : APIInfo) : APIScore :=
  { api := api,
    total_score := api.reliability_score * 100,
    category_scores :=
      { budget := if api.pricing c.budget then 100 else 0,
        data_types := if dataCompatible c api then 100 else 0,
        frequency := 75,
        use_case := 75 },
    compatibility_percentage := truncInt (api.reliability_score * 100),
    recommendation_rank := 0 }

/-- The APIScore built in the zero-compatible-entries degradation branch
(flat 50 placeholders). -/
def degradedScoreOf (api : APIInfo) : APIScore :=
  { api := api,
    total_score := api.reliability_score * 100,
    category_scores := { budget := 50, data_types := 50, frequency := 50, use_case := 50 },
    compatibility_percentage := truncInt (api.reliability_score * 100),
    recommendation_rank := 0 }

/-- models.py `get_fallback_recommendations`: filter, score by reliability,
sort descending by reliability, rank; if nothing passed the filter, the
top-3 most reliable catalog entries with neutral 50 placeholders. -/
def get_fallback_recommendations (c : UserConstraints) : List APIScore :=
  let fallback_scores :=
    assignRanks
      (sortDescBy (fun s => s.api.reliability_score)
        ((fallbackPassing c).map (fallbackScoreOf c))) 1
  if fallback_scores.isEmpty then
    assignRanks
      (((sortDescBy (fun a : APIInfo => a.reliability_score) get_all_apis).take 3).map
        degradedScoreOf) 1
  else
    fallback_scores

/-! ### Verdict generator (models.py lines 600-1158) -/

/-- models.py `LOW_RELIABILITY_THRESHOLD`. -/
def LOW_RELIABILITY_THRESHOLD : ℚ := 70/100

/-- models.py `SIGNIFICANT_LIMITATION_KEYWORDS`. -/
def SIGNIFICANT_LIMITATION_KEYWORDS : List String :=
  ["commercial use explicitly prohibited",
   "non-commercial use only",
   "personal/educational use only",
   "unofficial api",
   "may break without notice"]

/-- models.py keyword list inside `has_tos_restrictions_for_use_case`
(the scoring engine's four penalty phrases plus a fifth). -/
def verdict_restricted_keywords : List String :=
  ["commercial use explicitly prohibited",
   "non-commercial use only",
   "personal/educational use only",
   "free tier for non-commercial use only",
   "free tier for personal/non-commercial use only"]

/-- models.py `has_tos_restrictions_for_use_case`. -/
def has_tos_restrictions_for_use_case (api : APIInfo) (use_case : UseCase) : Bool :=
  if use_case = UseCase.TRADING_BOT then
    api.tos_restrictions.any
      (fun r => verdict_restricted_keywords.any (fun kw => containsKeyword r kw))
  else
    false

/-- models.py `has_significant_limitations`. -/
def has_significant_limitations (s : APIScore) (c : UserConstraints) : Bool :=
  decide (s.api.reliability_score < LOW_RELIABILITY_THRESHOLD) ||
  has_tos_restrictions_for_use_case s.api c.use_case ||
  s.api.limitations.any
    (fun l => SIGNIFICANT_LIMITATION_KEYWORDS.any (fun kw => containsKeyword l kw))

/-- models.py `get_limitation_reasons`. -/
def get_limitation_reasons (s : APIScore) (c : UserConstraints) : List String :=
  (if s.api.reliability_score < LOW_RELIABILITY_THRESHOLD then
    ["lower reliability score (" ++ toString (truncInt (s.api.reliability_score * 100)) ++ "%)"]
   else []) ++
  (if has_tos_restrictions_for_use_case s.api c.use_case then
    ["TOS restrictions that may conflict with your use case"]
   else []) ++
  (if s.api.limitations.any
      (fun l => containsKeyword l "unofficial api" || containsKeyword l "may break without notice") then
    ["potential stability concerns (unofficial API)"]
   else [])

/-- models.py `generate_next_steps`. -/
def generate_next_steps (api : APIInfo) (c : UserConstraints) : List String :=
  (if c.budget = BudgetTier.FREE then
    ["Sign up for a free " ++ api.name ++ " account and get your API key"]
   else
    ["Visit " ++ api.name ++ "\x27s pricing page and select the " ++
     BudgetTier.value c.budget ++ " plan"]) ++
  ["Review " ++ api.name ++ "\x27s API documentation for " ++
   String.intercalate ", " (c.data_types.map DataType.value) ++ " endpoints"] ++
  (if api.rate_limits ≠ [] then
    ["Plan your request strategy around the " ++
     (match api.rate_limits.lookup "requests_per_minute" with
      | some n => toString n
      | none => "N/A") ++ " requests/minute rate limit"]
   else []) ++
  (if api.tos_restrictions ≠ [] then
    (if c.use_case = UseCase.TRADING_BOT then
      ["Review the Terms of Service to ensure compliance with commercial use requirements"]
     else
      ["Review the Terms of Service for any attribution or usage requirements"])
   else [])

/-- models.py `generate_trade_offs`.  The set difference
`second_coverage - top_coverage` is modelled in first-occurrence order of
`second.data_coverage` (catalog coverage lists are duplicate-free). -/
def generate_trade_offs (top_api runner_up : APIScore) (c : UserConstraints) : List String :=
  let top := top_api.api
  let second := runner_up.api
  let top_rpm := (top.rate_limits.lookup "requests_per_minute").getD 0
  let second_rpm := (second.rate_limits.lookup "requests_per_minute").getD 0
  let second_only := second.data_coverage.filter (fun dt => dt ∉ top.data_coverage)
  (if top.reliability_score < second.reliability_score then
    ["Choose **" ++ second.name ++ "** if you need higher reliability (" ++
     toString (truncInt (second.reliability_score * 100)) ++ "% vs " ++
     toString (truncInt (top.reliability_score * 100)) ++ "%)"]
   else []) ++
  (if top_rpm < second_rpm then
    ["Choose **" ++ second.name ++ "** if you need higher rate limits (" ++
     toString second_rpm ++ " vs " ++ toString top_rpm ++ " requests/minute)"]
   else []) ++
  (if second_only ≠ [] then
    ["Choose **" ++ second.name ++ "** if you also need " ++
     String.intercalate ", " (second_only.map DataType.value) ++ " data"]
   else []) ++
  (if c.budget = BudgetTier.FREE ∧ top.pricing BudgetTier.FREE ∧
      ¬ second.pricing BudgetTier.FREE then
    ["**" ++ top.name ++ "** offers a free tier while **" ++ second.name ++
     "** requires payment"]
   else []) ++
  (if top.strengths ≠ [] ∧ second.strengths ≠ [] then
    ["**" ++ top.name ++ "** excels at: " ++
     String.mk (lowerStr (top.strengths.headD ""))]
   else [])

/-- The `recommendation_parts` list built in `generate_verdict`. -/
def recommendationParts (winner : APIScore) (c : UserConstraints) : List String :=
  ["**" ++ winner.api.name ++ "** is your best match with a **" ++
   toString winner.compatibility_percentage ++ "% compatibility score**."] ++
  (match winner.api.strengths with
   | [] => []
   | s :: _ => ["Key advantage: " ++ s]) ++
  (if c.budget = BudgetTier.FREE then
    (if winner.api.pricing BudgetTier.FREE then
      ["This API offers a **free tier** that meets your budget requirements."]
     else [])
   else
    ["This API supports your **" ++ BudgetTier.value c.budget ++ "** budget tier."])

/-- The `alternative_api` / `alternative_reason` pair computed at the end
of `generate_verdict` when a runner-up exists. -/
def alternativeFieldsSome (winner r : APIScore) (c : UserConstraints) :
    String × String :=
  if has_significant_limitations winner c then
    let reasons := get_limitation_reasons winner c
    if reasons ≠ [] then
      (r.api.name,
       "Consider **" ++ r.api.name ++ "** as an alternative due to " ++
       winner.api.name ++ "\x27s " ++ String.intercalate " and " reasons ++
       ". " ++ r.api.name ++ " has a " ++ toString r.compatibility_percentage ++
       "% compatibility score and " ++
       toString (truncInt (r.api.reliability_score * 100)) ++ "% reliability.")
    else ("", "")
  else ("", "")

/-- The `alternative_api` / `alternative_reason` pair computed at the end
of `generate_verdict`. -/
def alternativeFields (winner : APIScore) (runner_up : Option APIScore)
    (c : UserConstraints) : String × String :=
  match runner_up with
  | none => ("", "")
  | some r => alternativeFieldsSome winner r c

/-- models.py `generate_verdict`.  The internal try/except blocks never
fire on this total model, so each section is its plain computation. -/
def generate_verdict (top_apis : List APIScore) (c : UserConstraints) : Verdict :=
  match top_apis with
  | [] =>
    { recommendation_text := "No APIs available for evaluation.",
      trade_offs := [],
      next_steps := ["Please check your constraints and try again."],
      alternative_api := "",
      alternative_reason := "" }
  | winner :: rest =>
    let runner_up := rest.head?
    let alt := alternativeFields winner runner_up c
    { recommendation_text := joinWithSpace (recommendationParts winner c),
      trade_offs :=
        (match runner_up with
         | some r => generate_trade_offs winner r c
         | none => []),
      next_steps := generate_next_steps winner.api c,
      alternative_api := alt.1,
      alternative_reason := alt.2 }

/-! ### Properties of the stable descending sort -/

/-- `l` is sorted descending under `key`. -/
def KeySorted {α : Type} (key : α → ℚ) (l : List α) : Prop :=
  l.Pairwise (fun a b => key b ≤ key a)

theorem insertDescBy_perm {α : Type} (key : α → ℚ) (x : α) (l : List α) :
    List.Perm (insertDescBy key x l) (x :: l) := by
  induction l with
  | nil => simp [insertDescBy]
  | cons y ys ih =>
    simp only [insertDescBy]
    split
    · exact List.Perm.refl _
    · exact (ih.cons y).trans (List.Perm.swap x y ys)

theorem sortDescBy_aux_perm {α : Type} (key : α → ℚ) (l : List α) :
    ∀ acc, List.Perm (List.foldl (fun a x => insertDescBy key x a) acc l) (acc ++ l) := by
  induction l with
  | nil => intro acc; simp
  | cons x xs ih =>
    intro acc
    simp only [List.foldl_cons]
    refine (ih (insertDescBy key x acc)).trans ?_
    refine (((insertDescBy_perm key x acc).append_right xs).trans ?_)
    exact List.perm_middle.symm.trans (List.Perm.refl _)

theorem sortDescBy_perm {α : Type} (key : α → ℚ) (l : List α) :
    List.Perm (sortDescBy key l) l := by
  simpa using sortDescBy_aux_perm key l []

theorem insertDescBy_sorted {α : Type} (key : α → ℚ) (x : α) {l : List α}
    (h : KeySorted key l) : KeySorted key (insertDescBy key x l) := by
  induction l with
  | nil => simp [insertDescBy, KeySorted]
  | cons y ys ih =>
    rcases List.pairwise_cons.mp h with ⟨hy, hys⟩
    simp only [insertDescBy]
    split
    case isTrue hlt =>
      refine List.pairwise_cons.mpr ⟨?_, h⟩
      intro b hb
      rcases List.mem_cons.mp hb with rfl | hb2
      · exact le_of_lt hlt
      · exact le_trans (hy b hb2) (le_of_lt hlt)
    case isFalse hge =>
      refine List.pairwise_cons.mpr ⟨?_, ih hys⟩
      intro b hb
      have hb2 : b ∈ x :: ys := (insertDescBy_perm key x ys).mem_iff.mp hb
      rcases List.mem_cons.mp hb2 with rfl | hb3
      · exact not_lt.mp hge
      · exact hy b hb3

theorem sortDescBy_aux_sorted {α : Type} (key : α → ℚ) (l : List α) :
    ∀ acc, KeySorted key acc →
      KeySorted key (List.foldl (fun a x => insertDescBy key x a) acc l) := by
  induction l with
  | nil => intro acc h; simpa using h
  | cons x xs ih =>
    intro acc h
    simp only [List.foldl_cons]
    exact ih _ (insertDescBy_sorted key x h)

theorem sortDescBy_sorted {α : Type} (key : α → ℚ) (l : List α) :
    KeySorted key (sortDescBy key l) :=
  sortDescBy_aux_sorted key l [] (by simp [KeySorted])

theorem filter_insertDescBy_of_ne {α : Type} (key : α → ℚ) (x : α) (l : List α)
    (q : ℚ) (hx : ¬ key x = q) :
    (insertDescBy key x l).filter (fun a => key a = q) =
      l.filter (fun a => key a = q) := by
  induction l with
  | nil => simp [insertDescBy, hx]
  | cons y ys ih =>
    simp only [insertDescBy]
    split
    · simp [List.filter_cons, hx]
    · simp only [List.filter_cons]
      rw [ih]

theorem filter_insertDescBy_of_eq {α : Type} (key : α → ℚ) (x : α) {l : List α}
    (q : ℚ) (hx : key x = q) (h : KeySorted key l) :
    (insertDescBy key x l).filter (fun a => key a = q) =
      l.filter (fun a => key a = q) ++ [x] := by
  induction l with
  | nil => simp [insertDescBy, hx]
  | cons y ys ih =>
    rcases List.pairwise_cons.mp h with ⟨hy, hys⟩
    simp only [insertDescBy]
    split
    case isTrue hlt =>
      have hnil : (y :: ys).filter (fun a => key a = q) = [] := by
        rw [List.filter_eq_nil_iff]
        intro b hb
        rcases List.mem_cons.mp hb with rfl | hb2
        · simpa using ne_of_lt (hx ▸ hlt)
        · simpa using ne_of_lt (lt_of_le_of_lt (hy b hb2) (hx ▸ hlt))
      rw [List.filter_cons_of_pos (by simpa using hx), hnil]
      rfl
    case isFalse hge =>
      by_cases hyq : key y = q
      · rw [List.filter_cons_of_pos (by simpa using hyq),
          List.filter_cons_of_pos (by simpa using hyq), ih hys]
        rfl
      · rw [List.filter_cons_of_neg (by simpa using hyq),
          List.filter_cons_of_neg (by simpa using hyq), ih hys]

theorem sortDescBy_aux_filter {α : Type} (key : α → ℚ) (l : List α) (q : ℚ) :
    ∀ acc, KeySorted key acc →
      (List.foldl (fun a x => insertDescBy key x a) acc l).filter (fun a => key a = q) =
        acc.filter (fun a => key a = q) ++ l.filter (fun a => key a = q) := by
  induction l with
  | nil => intro acc h; simp
  | cons x xs ih =>
    intro acc h
    simp only [List.foldl_cons]
    rw [ih _ (insertDescBy_sorted key x h)]
    by_cases hx : key x = q
    · rw [filter_insertDescBy_of_eq key x q hx h,
        List.filter_cons_of_pos (by simpa using hx)]
      simp
    · rw [filter_insertDescBy_of_ne key x acc q hx,
        List.filter_cons_of_neg (by simpa using hx)]

/-- Stability: the elements of any fixed key value appear in the sorted
output exactly in their input order. -/
theorem sortDescBy_filter {α : Type} (key : α → ℚ) (l : List α) (q : ℚ) :
    (sortDescBy key l).filter (fun a => key a = q) = l.filter (fun a => key a = q) := by
  have h := sortDescBy_aux_filter key l q [] (by simp [KeySorted])
  simpa [sortDescBy] using h

/-! ### Properties of rank assignment -/

theorem assignRanks_length (l : List APIScore) (n : ℕ) :
    (assignRanks l n).length = l.length := by
  induction l generalizing n with
  | nil => rfl
  | cons s rest ih => simp [assignRanks, ih]

theorem assignRanks_rank_get (l : List APIScore) (n : ℕ) :
    ∀ i (hi : i < (assignRanks l n).length),
      ((assignRanks l n).get ⟨i, hi⟩).recommendation_rank = n + i := by
  induction l generalizing n with
  | nil => intro i hi; simp [assignRanks] at hi
  | cons s rest ih =>
    intro i hi
    cases i with
    | zero => simp [assignRanks]
    | succ j =>
      simp only [assignRanks, List.get_cons_succ]
      rw [ih (n + 1) j (by simpa [assignRanks] using hi)]
      omega

theorem assignRanks_map_total (l : List APIScore) (n : ℕ) :
    (assignRanks l n).map (fun s => s.total_score) = l.map (fun s => s.total_score) := by
  induction l generalizing n with
  | nil => rfl
  | cons s rest ih => simp [assignRanks, ih]

theorem assignRanks_map_api (l : List APIScore) (n : ℕ) :
    (assignRanks l n).map (fun s => s.api) = l.map (fun s => s.api) := by
  induction l generalizing n with
  | nil => rfl
  | cons s rest ih => simp [assignRanks, ih]

theorem assignRanks_filter_map_api (l : List APIScore) (n : ℕ) (q : ℚ) :
    ((assignRanks l n).filter (fun s => s.total_score = q)).map (fun s => s.api) =
      (l.filter (fun s => s.total_score = q)).map (fun s => s.api) := by
  induction l generalizing n with
  | nil => rfl
  | cons s rest ih =>
    by_cases hs : s.total_score = q
    · simp only [assignRanks]
      rw [List.filter_cons_of_pos (by simpa using hs),
        List.filter_cons_of_pos (by simpa using hs)]
      simp [ih]
    · simp only [assignRanks]
      rw [List.filter_cons_of_neg (by simpa using hs),
        List.filter_cons_of_neg (by simpa using hs)]
      exact ih (n + 1)

theorem assignRanks_mem (l : List APIScore) (n : ℕ) (s : APIScore)
    (h : s ∈ assignRanks l n) :
    ∃ t ∈ l, s.api = t.api ∧ s.total_score = t.total_score ∧
      s.category_scores = t.category_scores ∧
      s.compatibility_percentage = t.compatibility_percentage := by
  induction l generalizing n with
  | nil => simp [assignRanks] at h
  | cons t rest ih =>
    rcases List.mem_cons.mp h with rfl | h2
    · exact ⟨t, List.mem_cons_self t rest, rfl, rfl, rfl, rfl⟩
    · rcases ih (n + 1) h2 with ⟨u, hu, h3⟩
      exact ⟨u, List.mem_cons_of_mem t hu, h3⟩

theorem assignRanks_sorted (l : List APIScore) (n : ℕ)
    (h : KeySorted (fun s : APIScore => s.total_score) l) :
    KeySorted (fun s : APIScore => s.total_score) (assignRanks l n) := by
  have h1 : (l.map (fun s => s.total_score)).Pairwise (fun a b : ℚ => b ≤ a) :=
    List.pairwise_map.mpr h
  rw [← assignRanks_map_total l n] at h1
  exact List.pairwise_map.mp h1

theorem assignRanks_sorted_rel (l : List APIScore) (n : ℕ)
    (h : KeySorted (fun s : APIScore => s.api.reliability_score) l) :
    KeySorted (fun s : APIScore => s.api.reliability_score) (assignRanks l n) := by
  have h1 : (l.map (fun s => s.api)).Pairwise
      (fun a b : APIInfo => b.reliability_score ≤ a.reliability_score) :=
    List.pairwise_map.mpr h
  rw [← assignRanks_map_api l n] at h1
  exact List.pairwise_map.mp h1

/-! ### Claim C1 -/

/-- The concrete constraints {Free, {Stocks}, End-of-day, Research} used by
several concrete scenarios. -/
def freeStocksEodResearch : UserConstraints :=
  { budget := BudgetTier.FREE, data_types := [DataType.STOCKS],
    frequency := FrequencyTier.EOD, use_case := UseCase.RESEARCH }

/-- Length of the list behind a successful `score_apis` result. -/
def okLength : Except String (List APIScore) → Option ℕ
  | Except.ok l => some l.length
  | Except.error _ => none

/-- Names of the ranked list behind a successful `score_apis` result. -/
def okNames : Except String (List APIScore) → Option (List String)
  | Except.ok l => some (l.map (fun s => s.api.name))
  | Except.error _ => none

theorem filterMap_some_map {α β : Type} (f : α → β) (l : List α) :
    l.filterMap (fun a => some (f a)) = l.map f := by
  induction l with
  | nil => rfl
  | cons a as ih => simp only [List.filterMap_cons, List.map_cons, ih]

theorem get_congr {α : Type} {l₁ l₂ : List α} (h : l₁ = l₂) (i : ℕ)
    (hi : i < l₂.length) :
    l₂.get ⟨i, hi⟩ = l₁.get ⟨i, by rw [h]; exact hi⟩ := by
  subst h; rfl

/-- Full behaviour of `score_apis` on a non-empty catalog: one APIScore per
entry, sorted descending, ranks 1..N, stable ties, head maximal, and every
result element is the scoring of some catalog entry. -/
theorem score_apis_ok_spec (c : UserConstraints) (apis : List APIInfo) (h : apis ≠ []) :
    ∃ w rest, score_apis c apis = Except.ok (w :: rest) ∧
      (w :: rest).length = apis.length ∧
      KeySorted (fun s : APIScore => s.total_score) (w :: rest) ∧
      (∀ i (hi : i < (w :: rest).length),
        ((w :: rest).get ⟨i, hi⟩).recommendation_rank = i + 1) ∧
      (∀ q : ℚ, ((w :: rest).filter (fun s => s.total_score = q)).map (fun s => s.api) =
        apis.filter (fun a => (scoreOne c a).total_score = q)) ∧
      (∀ s ∈ w :: rest, s.total_score ≤ w.total_score) ∧
      (∀ s ∈ w :: rest, ∃ a ∈ apis, s.api = a ∧
        s.total_score = (scoreOne c a).total_score ∧
        s.category_scores = (scoreOne c a).category_scores) := by
  have hfm : apis.filterMap (fun a => some (scoreOne c a)) = apis.map (scoreOne c) :=
    filterMap_some_map (scoreOne c) apis
  have hnee : (apis.map (scoreOne c)).isEmpty = false := by
    cases apis with
    | nil => exact absurd rfl h
    | cons a as => rfl
  have hok : score_apis c apis =
      Except.ok (assignRanks
        (sortDescBy (fun s : APIScore => s.total_score) (apis.map (scoreOne c))) 1) := by
    unfold score_apis score_apis_core
    simp only [hfm, hnee]
    rfl
  have hlen : (assignRanks
      (sortDescBy (fun s : APIScore => s.total_score) (apis.map (scoreOne c))) 1).length =
      apis.length := by
    rw [assignRanks_length,
      (sortDescBy_perm (fun s : APIScore => s.total_score) (apis.map (scoreOne c))).length_eq,
      List.length_map]
  have hne2 : assignRanks
      (sortDescBy (fun s : APIScore => s.total_score) (apis.map (scoreOne c))) 1 ≠ [] := by
    intro hcon
    rw [hcon] at hlen
    exact h (List.length_eq_zero.mp hlen.symm)
  obtain ⟨w, rest, hwr⟩ := List.exists_cons_of_ne_nil hne2
  have hsort : KeySorted (fun s : APIScore => s.total_score) (w :: rest) := by
    rw [← hwr]
    exact assignRanks_sorted _ _ (sortDescBy_sorted _ _)
  refine ⟨w, rest, by rw [hok, hwr], by rw [← hwr]; exact hlen, hsort, ?_, ?_, ?_, ?_⟩
  · intro i hi
    rw [get_congr hwr i hi,
      assignRanks_rank_get (sortDescBy (fun s : APIScore => s.total_score)
        (apis.map (scoreOne c))) 1 i (by rw [hwr]; exact hi)]
    omega
  · intro q
    rw [← hwr, assignRanks_filter_map_api, sortDescBy_filter, List.filter_map,
      List.map_map]
    have hid : ((fun s : APIScore => s.api) ∘ scoreOne c) = fun a : APIInfo => a := rfl
    rw [hid, List.map_id']
    rfl
  · intro s hs
    rcases List.mem_cons.mp hs with rfl | hs2
    · exact le_refl _
    · exact (List.pairwise_cons.mp hsort).1 s hs2
  · intro s hs
    rw [← hwr] at hs
    obtain ⟨t, ht, hapi, htot, hcat, -⟩ := assignRanks_mem _ _ _ hs
    have ht2 : t ∈ apis.map (scoreOne c) :=
      (sortDescBy_perm (fun s : APIScore => s.total_score) (apis.map (scoreOne c))).mem_iff.mp ht
    obtain ⟨a, ha, hta⟩ := List.mem_map.mp ht2
    exact ⟨a, ha, by rw [hapi, ← hta]; rfl, by rw [htot, ← hta], by rw [hcat, ← hta]⟩

/-- C1: on a non-empty catalog whose entries all score (category scoring is
total on well-typed records), `score_apis` returns one APIScore per entry,
sorted by total_score descending, with recommendation_rank of the i-th
element equal to i (1-based), ties kept in catalog order (the filter at any
fixed total_score value returns the catalog entries of that score in input
order), and the head's total_score is the maximum. -/
theorem claim_C1 (c : UserConstraints) (apis : List APIInfo) (h : apis ≠ []) :
    ∃ w rest, score_apis c apis = Except.ok (w :: rest) ∧
      (w :: rest).length = apis.length ∧
      KeySorted (fun s : APIScore => s.total_score) (w :: rest) ∧
      (∀ i (hi : i < (w :: rest).length),
        ((w :: rest).get ⟨i, hi⟩).recommendation_rank = i + 1) ∧
      (∀ q : ℚ, ((w :: rest).filter (fun s => s.total_score = q)).map (fun s => s.api) =
        apis.filter (fun a => (scoreOne c a).total_score = q)) ∧
      (∀ s ∈ w :: rest, s.total_score ≤ w.total_score) := by
  obtain ⟨w, rest, h1, h2, h3, h4, h5, h6, -⟩ := score_apis_ok_spec c apis h
  exact ⟨w, rest, h1, h2, h3, h4, h5, h6⟩

/-- Witness for C1 at the built-in first two catalog entries. -/
theorem claim_C1_witness :
    okLength (score_apis freeStocksEodResearch [alphaVantage, polygonIo]) = some 2 := by
  obtain ⟨w, rest, hok, hlen, -, -, -, -⟩ :=
    claim_C1 freeStocksEodResearch [alphaVantage, polygonIo] (by simp)
  rw [hok]
  simp only [okLength]
  rw [hlen]
  rfl

/-! ### Claim C2 -/

theorem pyRound_cases (q : ℚ) : pyRound q = ⌊q⌋ ∨ pyRound q = ⌊q⌋ + 1 := by
  unfold pyRound
  split_ifs <;> simp

theorem pyRound_dist (q : ℚ) : |(pyRound q : ℚ) - q| ≤ 1/2 := by
  have h1 : (⌊q⌋ : ℚ) ≤ q := Int.floor_le q
  have h2 : q < ⌊q⌋ + 1 := Int.lt_floor_add_one q
  unfold pyRound
  split_ifs with ha hb hc
  · rw [abs_le]; constructor <;> push_cast <;> linarith
  · rw [abs_le]; constructor <;> push_cast <;> linarith
  · rw [abs_le]; constructor <;> push_cast <;> linarith
  · rw [abs_le]; constructor <;> push_cast <;> linarith

/-- C2: `calculate_compatibility_percentage` is `clamp(round(q), 0, 100)`
(round-half-to-even, as Python `round` on floats): below 0 it returns 0,
above 100 it returns 100, and on [0,100] it returns a nearest integer of
the input (within 1/2). -/
theorem claim_C2 (q : ℚ) :
    calculate_compatibility_percentage q = max 0 (min 100 (pyRound q)) ∧
    (q < 0 → calculate_compatibility_percentage q = 0) ∧
    (100 < q → calculate_compatibility_percentage q = 100) ∧
    (0 ≤ q → q ≤ 100 →
      calculate_compatibility_percentage q = pyRound q ∧
      |(pyRound q : ℚ) - q| ≤ 1/2) := by
  refine ⟨rfl, ?_, ?_, ?_⟩
  · intro hq
    have hfl : ⌊q⌋ < 0 := Int.floor_lt.mpr (by exact_mod_cast hq)
    have hle : pyRound q ≤ 0 := by
      rcases pyRound_cases q with h | h <;> omega
    unfold calculate_compatibility_percentage
    omega
  · intro hq
    have hfl : 100 ≤ ⌊q⌋ := Int.le_floor.mpr (by push_cast; linarith)
    have hge : 100 ≤ pyRound q := by
      rcases pyRound_cases q with h | h <;> omega
    unfold calculate_compatibility_percentage
    omega
  · intro h0 h100
    have hf0 : 0 ≤ ⌊q⌋ := Int.floor_nonneg.mpr h0
    have hf100 : ⌊q⌋ ≤ 100 := by
      have h := Int.floor_le_floor h100
      simpa using h
    have hub : pyRound q ≤ 100 := by
      by_cases heq : ⌊q⌋ = 100
      · have hq1 : (100 : ℚ) ≤ q := by
          have h := Int.floor_le q
          rw [heq] at h
          exact_mod_cast h
        have hq100 : q = 100 := le_antisymm h100 hq1
        subst hq100
        unfold pyRound
        norm_num
      · rcases pyRound_cases q with h | h <;> omega
    have hlb : 0 ≤ pyRound q := by
      rcases pyRound_cases q with h | h <;> omega
    refine ⟨?_, pyRound_dist q⟩
    unfold calculate_compatibility_percentage
    omega

/-- Witness for C2 at -1/2, 403/4 and 153/2. -/
theorem claim_C2_witness :
    calculate_compatibility_percentage (-1/2) = 0 ∧
    calculate_compatibility_percentage (403/4) = 100 ∧
    calculate_compatibility_percentage (153/2) = pyRound (153/2) := by
  refine ⟨(claim_C2 (-1/2)).2.1 (by norm_num),
          (claim_C2 (403/4)).2.2.1 (by norm_num),
          ((claim_C2 (153/2)).2.2.2 (by norm_num) (by norm_num)).1⟩

/-! ### Claim C5 -/

/-- A minimal well-formed record used by concrete witnesses. -/
def dummyApi : APIInfo :=
  { name := "Dummy", pricing := fun _ => false, data_coverage := [],
    frequency_support := [], rate_limits := [], strengths := [],
    limitations := [], tos_restrictions := [], reliability_score := 1/2 }

/-- C5: `score_apis` (via `score_apis_core`, whose per-entry scorer `f`
returns `none` exactly when scoring that entry raises) skips failing
entries and succeeds with one APIScore per successfully scored entry,
and raises exactly when zero entries scored (in particular on an empty
catalog every entry vacuously fails, so it raises). -/
theorem claim_C5 (f : APIInfo → Option APIScore) (apis : List APIInfo) :
    ((∃ a ∈ apis, (f a).isSome) →
      ∃ res, score_apis_core f apis = Except.ok res ∧
        res.length = (apis.filterMap f).length) ∧
    ((∀ a ∈ apis, f a = none) →
      score_apis_core f apis =
        Except.error "Unable to score any APIs - all scoring attempts failed") := by
  constructor
  · rintro ⟨a, ha, hsome⟩
    have hne : apis.filterMap f ≠ [] := by
      intro hcon
      have hnone := List.filterMap_eq_nil_iff.mp hcon a ha
      rw [hnone] at hsome
      simp at hsome
    have hie : (apis.filterMap f).isEmpty = false := by
      cases hfm : apis.filterMap f with
      | nil => exact absurd hfm hne
      | cons x xs => rfl
    refine ⟨assignRanks (sortDescBy (fun s => s.total_score) (apis.filterMap f)) 1, ?_, ?_⟩
    · unfold score_apis_core
      simp only [hie]
      rfl
    · rw [assignRanks_length, (sortDescBy_perm _ _).length_eq]
  · intro hall
    have hnil : apis.filterMap f = [] := List.filterMap_eq_nil_iff.mpr hall
    unfold score_apis_core
    simp only [hnil]
    rfl

/-- Witness for C5: a one-entry catalog whose entry scores, and scorers
that fail on every entry. -/
theorem claim_C5_witness :
    okLength (score_apis_core (fun a => some (scoreOne freeStocksEodResearch a))
      [dummyApi]) = some 1 ∧
    score_apis_core (fun _ => none) [dummyApi] =
      Except.error "Unable to score any APIs - all scoring attempts failed" ∧
    score_apis_core (fun a => some (scoreOne freeStocksEodResearch a)) [] =
      Except.error "Unable to score any APIs - all scoring attempts failed" := by
  refine ⟨?_, ?_, ?_⟩
  · obtain ⟨res, hok, hlen⟩ :=
      (claim_C5 (fun a => some (scoreOne freeStocksEodResearch a)) [dummyApi]).1
        ⟨dummyApi, by simp, rfl⟩
    rw [hok]
    simp only [okLength]
    rw [hlen]
    rfl
  · exact (claim_C5 (fun _ => none) [dummyApi]).2 (fun a _ => rfl)
  · exact (claim_C5 (fun a => some (scoreOne freeStocksEodResearch a)) []).2
      (fun a ha => absurd ha (List.not_mem_nil a))

/-! ### Claim C7 -/

theorem restricted_keyword_subsume (r : String)
    (h : containsKeyword r "free tier for personal/non-commercial use only" = true) :
    containsKeyword r "non-commercial use only" = true := by
  unfold containsKeyword at h ⊢
  rw [decide_eq_true_iff] at h ⊢
  have hsub : ("non-commercial use only").data <:+:
      ("free tier for personal/non-commercial use only").data := by decide
  exact hsub.trans h

/-- C7: the verdict generator's TradingBot-conflicting ToS predicate agrees
extensionally with the scoring engine's score-25 penalty branch: its fifth
keyword contains the second one as a substring, so the two keyword scans
accept exactly the same records. -/
theorem claim_C7 (api : APIInfo) (c : UserConstraints)
    (h : c.use_case = UseCase.TRADING_BOT) :
    has_tos_restrictions_for_use_case api UseCase.TRADING_BOT = true ↔
      score_use_case_suitability api c = 25 := by
  unfold has_tos_restrictions_for_use_case score_use_case_suitability
  rw [h]
  rw [if_pos rfl, if_pos rfl]
  have h45 : api.tos_restrictions.any
      (fun r => verdict_restricted_keywords.any (fun kw => containsKeyword r kw)) = true ↔
      api.tos_restrictions.any
        (fun r => commercial_restricted_keywords.any (fun kw => containsKeyword r kw)) = true := by
    rw [List.any_eq_true, List.any_eq_true]
    constructor
    · rintro ⟨r, hr, hkw⟩
      rw [List.any_eq_true] at hkw
      obtain ⟨kw, hkwmem, hc⟩ := hkw
      refine ⟨r, hr, ?_⟩
      rw [List.any_eq_true]
      simp only [verdict_restricted_keywords, List.mem_cons, List.not_mem_nil,
        or_false] at hkwmem
      rcases hkwmem with rfl | rfl | rfl | rfl | rfl
      · exact ⟨_, by simp [commercial_restricted_keywords], hc⟩
      · exact ⟨_, by simp [commercial_restricted_keywords], hc⟩
      · exact ⟨_, by simp [commercial_restricted_keywords], hc⟩
      · exact ⟨_, by simp [commercial_restricted_keywords], hc⟩
      · exact ⟨"non-commercial use only", by simp [commercial_restricted_keywords],
          restricted_keyword_subsume r hc⟩
    · rintro ⟨r, hr, hkw⟩
      rw [List.any_eq_true] at hkw
      obtain ⟨kw, hkwmem, hc⟩ := hkw
      refine ⟨r, hr, ?_⟩
      rw [List.any_eq_true]
      refine ⟨kw, ?_, hc⟩
      simp only [commercial_restricted_keywords, List.mem_cons, List.not_mem_nil,
        or_false] at hkwmem
      rcases hkwmem with rfl | rfl | rfl | rfl <;>
        simp [verdict_restricted_keywords]
  rw [h45]
  constructor
  · intro h4
    rw [if_pos h4]
  · intro hsc
    by_cases h4 : api.tos_restrictions.any
        (fun r => commercial_restricted_keywords.any (fun kw => containsKeyword r kw)) = true
    · exact h4
    · exfalso
      rw [if_neg h4] at hsc
      by_cases h100 : api.tos_restrictions.any
          (fun r => commercial_allowed_keywords.any (fun kw => containsKeyword r kw)) = true
      · rw [if_pos h100] at hsc
        norm_num at hsc
      · rw [if_neg h100] at hsc
        norm_num at hsc

/-- A record whose only ToS clause matches the shared phrase set. -/
def tosApi : APIInfo :=
  { name := "T", pricing := fun _ => false, data_coverage := [],
    frequency_support := [], rate_limits := [], strengths := [],
    limitations := [], tos_restrictions := ["Non-commercial use only"],
    reliability_score := 1/2 }

/-- Trading-bot constraints used by concrete checks. -/
def botConstraints : UserConstraints :=
  { budget := BudgetTier.FREE, data_types := [], frequency := FrequencyTier.EOD,
    use_case := UseCase.TRADING_BOT }

/-- Witness for C7. -/
theorem claim_C7_witness :
    score_use_case_suitability tosApi botConstraints = 25 := by
  refine (claim_C7 tosApi botConstraints rfl).mp ?_
  decide

/-! ### Claim C9 -/

/-- C9: `score_apis` is deterministic — the `time.time()` reads (modelled
by the clock stream) never influence the returned value, and two runs on
identical inputs return the same result. -/
theorem claim_C9 (clock₁ clock₂ : ℕ → ℚ) (c : UserConstraints)
    (apis : List APIInfo) :
    score_apis_run clock₁ c apis = score_apis_run clock₂ c apis ∧
    score_apis_run clock₁ c apis = score_apis c apis :=
  ⟨rfl, rfl⟩

/-! ### Claim C8 -/

theorem research_ne_trading : (UseCase.RESEARCH = UseCase.TRADING_BOT) = False := by
  simp

theorem scoreOne_total_eq (c : UserConstraints) (api : APIInfo) :
    (scoreOne c api).total_score =
      score_budget_compatibility api c * (3/10) +
      score_data_type_coverage api c * (3/10) +
      score_frequency_availability api c * (1/4) +
      score_use_case_suitability api c * (3/20) := rfl

theorem scoreOne_category_eq (c : UserConstraints) (api : APIInfo) :
    (scoreOne c api).category_scores = calculate_category_scores api c := rfl

theorem score_budget_compatibility_cases (api : APIInfo) (c : UserConstraints) :
    score_budget_compatibility api c = 100 ∨ score_budget_compatibility api c = 0 := by
  unfold score_budget_compatibility
  split_ifs <;> simp

theorem score_frequency_availability_cases (api : APIInfo) (c : UserConstraints) :
    score_frequency_availability api c = 100 ∨ score_frequency_availability api c = 0 := by
  unfold score_frequency_availability
  split_ifs <;> simp

theorem score_use_case_suitability_bounds (api : APIInfo) (c : UserConstraints) :
    0 ≤ score_use_case_suitability api c ∧ score_use_case_suitability api c ≤ 100 := by
  unfold score_use_case_suitability
  split_ifs <;> norm_num

theorem score_data_type_coverage_bounds (api : APIInfo) (c : UserConstraints) :
    0 ≤ score_data_type_coverage api c ∧ score_data_type_coverage api c ≤ 100 := by
  unfold score_data_type_coverage
  split_ifs with h
  · norm_num
  · have hlen : 0 < c.data_types.length := List.length_pos.mpr h
    have hn : (0:ℚ) < (c.data_types.length : ℚ) := by exact_mod_cast hlen
    have hk : ((c.data_types.countP (fun dt => dt ∈ api.data_coverage) : ℕ) : ℚ) ≤
        (c.data_types.length : ℚ) := by
      exact_mod_cast List.countP_le_length _
    have hk0 : (0:ℚ) ≤ ((c.data_types.countP (fun dt => dt ∈ api.data_coverage) : ℕ) : ℚ) := by
      positivity
    constructor
    · positivity
    · have hdiv : ((c.data_types.countP (fun dt => dt ∈ api.data_coverage) : ℕ) : ℚ) /
          (c.data_types.length : ℚ) ≤ 1 := by
        rw [div_le_one hn]
        exact hk
      nlinarith

theorem scoreOne_total_le_100 (c : UserConstraints) (api : APIInfo) :
    (scoreOne c api).total_score ≤ 100 := by
  rw [scoreOne_total_eq]
  have hd := score_data_type_coverage_bounds api c
  have hu := score_use_case_suitability_bounds api c
  rcases score_budget_compatibility_cases api c with hb | hb <;>
    rcases score_frequency_availability_cases api c with hf | hf <;>
      rw [hb, hf] <;> nlinarith [hd.1, hd.2, hu.1, hu.2]

theorem scoreOne_total_le_70 (c : UserConstraints) (api : APIInfo)
    (h : api.pricing c.budget = false) :
    (scoreOne c api).total_score ≤ 70 := by
  rw [scoreOne_total_eq]
  have hb : score_budget_compatibility api c = 0 := by
    unfold score_budget_compatibility
    simp [h]
  have hd := score_data_type_coverage_bounds api c
  have hu := score_use_case_suitability_bounds api c
  rcases score_frequency_availability_cases api c with hf | hf <;>
    rw [hb, hf] <;> nlinarith [hd.1, hd.2, hu.1, hu.2]

theorem scoreOne_total_alpha (api : APIInfo)
    (hp : api.pricing BudgetTier.FREE = true)
    (hd : DataType.STOCKS ∈ api.data_coverage)
    (hf : FrequencyTier.EOD ∈ api.frequency_support) :
    (scoreOne freeStocksEodResearch api).total_score = 100 := by
  rw [scoreOne_total_eq]
  unfold score_budget_compatibility score_data_type_coverage
    score_frequency_availability score_use_case_suitability
  simp only [freeStocksEodResearch, hp, hd, hf]
  norm_num [List.countP, List.countP.go, hd, research_ne_trading]

/-- "Alpha" when it does not cover the requested data type or frequency:
rank 1 fails (counterexample input for C8). -/
def alphaBad : APIInfo :=
  { name := "Alpha", pricing := fun b => b = BudgetTier.FREE, data_coverage := [],
    frequency_support := [], rate_limits := [], strengths := [], limitations := [],
    tos_restrictions := [], reliability_score := 9/10 }

/-- A provider not supporting Free but matching data type and frequency. -/
def betaApi : APIInfo :=
  { name := "Beta", pricing := fun _ => false, data_coverage := [DataType.STOCKS],
    frequency_support := [FrequencyTier.EOD], rate_limits := [], strengths := [],
    limitations := [], tos_restrictions := [], reliability_score := 1/10 }

/-- "Alpha" covering the requested data type and frequency. -/
def alphaGood : APIInfo :=
  { name := "Alpha", pricing := fun b => b = BudgetTier.FREE,
    data_coverage := [DataType.STOCKS], frequency_support := [FrequencyTier.EOD],
    rate_limits := [], strengths := [], limitations := [], tos_restrictions := [],
    reliability_score := 1/2 }

/-- Head name of the ranked list behind a successful `score_apis` result. -/
def okHeadName : Except String (List APIScore) → Option String
  | Except.ok (s :: _) => some s.api.name
  | _ => none

/-- Counterexample to C8 as stated: in the catalog [alphaBad, betaApi]
exactly one provider, named "Alpha", supports Free, yet under
{Free, {Stocks}, End-of-day, Research} the ranking is ["Beta", "Alpha"]—
"Alpha" (total 45) loses to "Beta" (total 70) and is not rank 1. -/
theorem claim_C8_counterexample :
    okNames (score_apis freeStocksEodResearch [alphaBad, betaApi]) =
      some ["Beta", "Alpha"] := by
  norm_num [okNames, score_apis, score_apis_core, scoreOne,
    calculate_category_scores, calculate_total_score, score_budget_compatibility,
    score_data_type_coverage, score_frequency_availability,
    score_use_case_suitability, sortDescBy, insertDescBy, assignRanks,
    alphaBad, betaApi, freeStocksEodResearch, List.countP, List.countP.go,
    research_ne_trading, List.filterMap_cons, decide_True, decide_False]

/-- C8 amended: under {Free, {Stocks}, End-of-day, Research}, if exactly the
providers named "Alpha" support Free, some catalog member "Alpha" supports
Free AND covers Stocks AND supports End-of-day, then "Alpha" is the rank-1
winner with budget category score 100.  (Without the coverage/frequency
hypotheses the original claim is false: see the counterexample.) -/
theorem claim_C8_amended (cat : List APIInfo) (alpha : APIInfo)
    (hmem : alpha ∈ cat) (hname : alpha.name = "Alpha")
    (hfree : alpha.pricing BudgetTier.FREE = true)
    (honly : ∀ a ∈ cat, a.pricing BudgetTier.FREE = true → a.name = "Alpha")
    (hstocks : DataType.STOCKS ∈ alpha.data_coverage)
    (heod : FrequencyTier.EOD ∈ alpha.frequency_support) :
    ∃ w rest, score_apis freeStocksEodResearch cat = Except.ok (w :: rest) ∧
      w.api.name = "Alpha" ∧ w.recommendation_rank = 1 ∧
      w.category_scores.budget = 100 := by
  have hcat : cat ≠ [] := by
    rintro rfl
    simp at hmem
  obtain ⟨w, rest, hok, hlen, hsort, hrank, hfil, hmax, hsrc⟩ :=
    score_apis_ok_spec freeStocksEodResearch cat hcat
  have halpha : (scoreOne freeStocksEodResearch alpha).total_score = 100 :=
    scoreOne_total_alpha alpha hfree hstocks heod
  -- some element of the result has total score 100
  have hex : ∃ s ∈ w :: rest, s.total_score = 100 := by
    have hfil100 := hfil 100
    have hmemf : alpha ∈ cat.filter
        (fun a => (scoreOne freeStocksEodResearch a).total_score = 100) := by
      rw [List.mem_filter]
      exact ⟨hmem, by simp [halpha]⟩
    rw [← hfil100] at hmemf
    obtain ⟨s, hsmem, -⟩ := List.mem_map.mp hmemf
    have hs2 := List.mem_filter.mp hsmem
    exact ⟨s, hs2.1, by simpa using hs2.2⟩
  -- hence the head's total score is exactly 100
  have hw100 : w.total_score = 100 := by
    obtain ⟨s, hsmem, hs100⟩ := hex
    have hle := hmax s hsmem
    rw [hs100] at hle
    obtain ⟨a, ha, -, htot, -⟩ := hsrc w (List.mem_cons_self w rest)
    have hub : w.total_score ≤ 100 := by
      rw [htot]
      exact scoreOne_total_le_100 freeStocksEodResearch a
    linarith
  -- the head comes from a catalog entry that must support Free
  obtain ⟨a, ha, hapi, htot, hcats⟩ := hsrc w (List.mem_cons_self w rest)
  have hfreea : a.pricing BudgetTier.FREE = true := by
    by_contra hcon
    have hfalse : a.pricing BudgetTier.FREE = false := by
      cases hpr : a.pricing BudgetTier.FREE with
      | false => rfl
      | true => exact absurd hpr hcon
    have h70 : (scoreOne freeStocksEodResearch a).total_score ≤ 70 :=
      scoreOne_total_le_70 freeStocksEodResearch a hfalse
    rw [← htot, hw100] at h70
    norm_num at h70
  refine ⟨w, rest, hok, ?_, ?_, ?_⟩
  · rw [hapi]
    exact honly a ha hfreea
  · have h0 := hrank 0 (by simp)
    simpa using h0
  · rw [hcats, scoreOne_category_eq]
    unfold calculate_category_scores score_budget_compatibility
    simp [freeStocksEodResearch, hfreea]

/-- Witness for the amended C8 on the catalog [alphaGood, betaApi]. -/
theorem claim_C8_witness :
    okHeadName (score_apis freeStocksEodResearch [alphaGood, betaApi]) =
      some "Alpha" := by
  obtain ⟨w, rest, hok, hname, -, -⟩ :=
    claim_C8_amended [alphaGood, betaApi] alphaGood
      (List.mem_cons_self alphaGood [betaApi]) rfl rfl
      (by
        intro a ha hp
        rcases List.mem_cons.mp ha with rfl | ha2
        · rfl
        · rcases List.mem_cons.mp ha2 with rfl | ha3
          · simp [betaApi] at hp
          · simp at ha3)
      (by simp [alphaGood]) (by simp [alphaGood])
  rw [hok]
  simp only [okHeadName]
  rw [hname]

/-! ### Claim C6 -/

theorem headD_mem {α : Type} (l : List α) (d : α) (h : l ≠ []) : l.headD d ∈ l := by
  cases l with
  | nil => exact absurd rfl h
  | cons a as => simp

/-- Constraints with an empty data-type selection: no entry passes the
fallback filter (`any` over an empty list is false). -/
def emptyTypesConstraints : UserConstraints :=
  { budget := BudgetTier.FREE, data_types := [], frequency := FrequencyTier.EOD,
    use_case := UseCase.RESEARCH }

/-- Placeholder APIScore for `headD`. -/
def fbDummy : APIScore := degradedScoreOf dummyApi

/-- C6: the fallback recommendations are sorted descending by reliability
and never empty; when some entry passes the budget/data filter, every
returned entry passes it and carries total = reliability*100 with 75
placeholders for frequency and use-case; when nothing passes, the result
is exactly the top-3 catalog entries by reliability (Quandl, Polygon.io,
Finnhub) with flat 50 placeholder category scores. -/
theorem claim_C6 (c : UserConstraints) :
    get_fallback_recommendations c ≠ [] ∧
    KeySorted (fun s : APIScore => s.api.reliability_score)
      (get_fallback_recommendations c) ∧
    ((fallbackPassing c).isEmpty = false →
      ∀ s ∈ get_fallback_recommendations c,
        s.api.pricing c.budget = true ∧ dataCompatible c s.api = true ∧
        s.total_score = s.api.reliability_score * 100 ∧
        s.category_scores.frequency = 75 ∧ s.category_scores.use_case = 75) ∧
    ((fallbackPassing c).isEmpty = true →
      (get_fallback_recommendations c).map (fun s => s.api.name) =
        ["Quandl", "Polygon.io", "Finnhub"] ∧
      ∀ s ∈ get_fallback_recommendations c,
        s.category_scores = { budget := 50, data_types := 50,
                              frequency := 50, use_case := 50 }) := by
  by_cases he : (fallbackPassing c).isEmpty = true
  · -- degradation branch
    have hP : fallbackPassing c = [] := by
      cases hp : fallbackPassing c with
      | nil => rfl
      | cons x xs => rw [hp] at he; simp at he
    have hres : get_fallback_recommendations c =
        assignRanks
          (((sortDescBy (fun a : APIInfo => a.reliability_score) get_all_apis).take 3).map
            degradedScoreOf) 1 := by
      unfold get_fallback_recommendations
      rw [hP]
      rfl
    have hnames : (get_fallback_recommendations c).map (fun s => s.api.name) =
        ["Quandl", "Polygon.io", "Finnhub"] := by
      rw [hres]
      norm_num [sortDescBy, insertDescBy, get_all_apis, alphaVantage, polygonIo,
        yahooFinance, finnhub, eodhd, quandl, marketstack, degradedScoreOf,
        assignRanks]
    refine ⟨?_, ?_, ?_, ?_⟩
    · intro h0
      rw [h0] at hnames
      simp at hnames
    · rw [hres]
      apply assignRanks_sorted_rel
      apply List.pairwise_map.mpr
      have hs := sortDescBy_sorted (fun a : APIInfo => a.reliability_score) get_all_apis
      exact List.Pairwise.sublist (List.take_sublist 3 _) hs
    · intro h
      rw [h] at he
      exact absurd he (by simp)
    · intro _
      refine ⟨hnames, ?_⟩
      intro s hs
      rw [hres] at hs
      obtain ⟨t, ht, -, -, hcats, -⟩ := assignRanks_mem _ _ _ hs
      obtain ⟨a, -, hta⟩ := List.mem_map.mp ht
      rw [hcats, ← hta]
      rfl
  · -- primary branch
    have he' : (fallbackPassing c).isEmpty = false := by
      cases hp : (fallbackPassing c).isEmpty with
      | false => rfl
      | true => exact absurd hp he
    have hPne : fallbackPassing c ≠ [] := by
      intro h0
      rw [h0] at he'
      simp at he'
    have hlenfb : (assignRanks
        (sortDescBy (fun s : APIScore => s.api.reliability_score)
          ((fallbackPassing c).map (fallbackScoreOf c))) 1).length =
        (fallbackPassing c).length := by
      rw [assignRanks_length, (sortDescBy_perm _ _).length_eq, List.length_map]
    have hfbne : assignRanks
        (sortDescBy (fun s : APIScore => s.api.reliability_score)
          ((fallbackPassing c).map (fallbackScoreOf c))) 1 ≠ [] := by
      intro h0
      rw [h0] at hlenfb
      exact hPne (List.length_eq_zero.mp hlenfb.symm)
    have hfbie : (assignRanks
        (sortDescBy (fun s : APIScore => s.api.reliability_score)
          ((fallbackPassing c).map (fallbackScoreOf c))) 1).isEmpty = false := by
      cases hp : assignRanks
          (sortDescBy (fun s : APIScore => s.api.reliability_score)
            ((fallbackPassing c).map (fallbackScoreOf c))) 1 with
      | nil => exact absurd hp hfbne
      | cons x xs => rfl
    have hres : get_fallback_recommendations c =
        assignRanks
          (sortDescBy (fun s : APIScore => s.api.reliability_score)
            ((fallbackPassing c).map (fallbackScoreOf c))) 1 := by
      unfold get_fallback_recommendations
      simp only [hfbie]
      rfl
    refine ⟨by rw [hres]; exact hfbne, ?_, ?_, ?_⟩
    · rw [hres]
      exact assignRanks_sorted_rel _ _ (sortDescBy_sorted _ _)
    · intro _ s hs
      rw [hres] at hs
      obtain ⟨t, ht, hapi, htot, hcats, -⟩ := assignRanks_mem _ _ _ hs
      have ht2 : t ∈ (fallbackPassing c).map (fallbackScoreOf c) :=
        (sortDescBy_perm _ _).mem_iff.mp ht
      obtain ⟨a, ha, hta⟩ := List.mem_map.mp ht2
      have hflt := List.mem_filter.mp ha
      have hand := Bool.and_eq_true_iff.mp hflt.2
      have hapi2 : s.api = a := by rw [hapi, ← hta]; rfl
      refine ⟨by rw [hapi2]; exact hand.1, by rw [hapi2]; exact hand.2, ?_, ?_, ?_⟩
      · rw [htot, ← hta, hapi2]
        rfl
      · rw [hcats, ← hta]
        rfl
      · rw [hcats, ← hta]
        rfl
    · intro h
      rw [h] at he'
      exact absurd he' (by simp)

/-- Witness for C6: Free/Stocks constraints exercise the filtered branch
(nonempty result whose head satisfies total = reliability*100); an empty
data-type selection forces the degradation branch. -/
theorem claim_C6_witness :
    get_fallback_recommendations freeStocksEodResearch ≠ [] ∧
    ((get_fallback_recommendations freeStocksEodResearch).headD fbDummy).total_score =
      ((get_fallback_recommendations freeStocksEodResearch).headD
        fbDummy).api.reliability_score * 100 ∧
    (get_fallback_recommendations emptyTypesConstraints).map (fun s => s.api.name) =
      ["Quandl", "Polygon.io", "Finnhub"] := by
  refine ⟨(claim_C6 freeStocksEodResearch).1, ?_,
    ((claim_C6 emptyTypesConstraints).2.2.2 (by decide)).1⟩
  have hmem := headD_mem _ fbDummy (claim_C6 freeStocksEodResearch).1
  exact (((claim_C6 freeStocksEodResearch).2.2.1 (by decide)) _ hmem).2.2.1

/-! ### String-containment helpers -/

theorem containsStr_refl (x : String) : ContainsStr x x :=
  ⟨[], [], by simp⟩

theorem containsStr_append_left (a b x : String) (h : ContainsStr a x) :
    ContainsStr (a ++ b) x := by
  obtain ⟨p, q, hpq⟩ := h
  refine ⟨p, q ++ b.data, ?_⟩
  rw [String.data_append, ← hpq]
  simp

theorem containsStr_append_right (a b x : String) (h : ContainsStr b x) :
    ContainsStr (a ++ b) x := by
  obtain ⟨p, q, hpq⟩ := h
  refine ⟨a.data ++ p, q, ?_⟩
  rw [String.data_append, ← hpq]
  simp

theorem containsStr_join {parts : List String} {p x : String}
    (hp : p ∈ parts) (h : ContainsStr p x) :
    ContainsStr (joinWithSpace parts) x := by
  induction parts with
  | nil => simp at hp
  | cons a rest ih =>
    rcases List.mem_cons.mp hp with rfl | hp2
    · cases rest with
      | nil => simpa [joinWithSpace] using h
      | cons b bs =>
        show ContainsStr (p ++ " " ++ joinWithSpace (b :: bs)) x
        exact containsStr_append_left _ _ _ (containsStr_append_left _ _ _ h)
    · cases rest with
      | nil => simp at hp2
      | cons b bs =>
        show ContainsStr (a ++ " " ++ joinWithSpace (b :: bs)) x
        exact containsStr_append_right _ _ _ (ih hp2)

theorem ne_empty_of_data (s : String) (h : s.data ≠ []) : s ≠ "" := by
  intro hc
  rw [hc] at h
  exact h rfl

theorem str_append_data_ne_nil_left (s t : String) (h : s.data ≠ []) :
    (s ++ t).data ≠ [] := by
  rw [String.data_append]
  intro hc
  rcases List.append_eq_nil.mp hc with ⟨h1, -⟩
  exact h h1

/-! ### Claim C4 -/

/-- A Free-tier winner with literal percentage 87 and no strengths. -/
def freeWinner : APIScore :=
  { api := alphaGood,
    total_score := 87,
    category_scores := { budget := 100, data_types := 100, frequency := 100,
                         use_case := 100 },
    compatibility_percentage := 87,
    recommendation_rank := 1 }

/-- Counterexample to C4 as stated: with budget Free and a winner that
prices the Free tier, the recommendation text says "free tier" (lower
case) and never contains the selected tier's display string "Free" as a
literal substring. -/
theorem claim_C4_counterexample :
    ¬ ContainsStr (generate_verdict [freeWinner] freeStocksEodResearch).recommendation_text
        (BudgetTier.value freeStocksEodResearch.budget) := by
  decide

/-- C4 amended: the recommendation text always contains the winner's name
and compatibility percentage as literal substrings; it contains the budget
tier's display string whenever the budget is not Free; for a Free budget it
contains the phrase "free tier" provided the winner prices the Free tier
(the original claim's unconditional tier-substring requirement fails for
Free: see the counterexample). -/
theorem claim_C4_amended (c : UserConstraints) (w : APIScore) (rest : List APIScore) :
    ContainsStr (generate_verdict (w :: rest) c).recommendation_text w.api.name ∧
    ContainsStr (generate_verdict (w :: rest) c).recommendation_text
      (toString w.compatibility_percentage) ∧
    (c.budget ≠ BudgetTier.FREE →
      ContainsStr (generate_verdict (w :: rest) c).recommendation_text
        (BudgetTier.value c.budget)) ∧
    (c.budget = BudgetTier.FREE → w.api.pricing BudgetTier.FREE = true →
      ContainsStr (generate_verdict (w :: rest) c).recommendation_text "free tier") := by
  have htext : (generate_verdict (w :: rest) c).recommendation_text =
      joinWithSpace (recommendationParts w c) := rfl
  rw [htext]
  have hp1 : ("**" ++ w.api.name ++ "** is your best match with a **" ++
      toString w.compatibility_percentage ++ "% compatibility score**.") ∈
      recommendationParts w c := by
    unfold recommendationParts
    simp
  refine ⟨?_, ?_, ?_, ?_⟩
  · refine containsStr_join hp1 ?_
    exact containsStr_append_left _ _ _ (containsStr_append_left _ _ _
      (containsStr_append_left _ _ _
        (containsStr_append_right _ _ _ (containsStr_refl w.api.name))))
  · refine containsStr_join hp1 ?_
    exact containsStr_append_left _ _ _
      (containsStr_append_right _ _ _ (containsStr_refl (toString w.compatibility_percentage)))
  · intro hb
    have hp3 : ("This API supports your **" ++ BudgetTier.value c.budget ++
        "** budget tier.") ∈ recommendationParts w c := by
      unfold recommendationParts
      rw [if_neg hb]
      simp
    refine containsStr_join hp3 ?_
    exact containsStr_append_left _ _ _
      (containsStr_append_right _ _ _ (containsStr_refl (BudgetTier.value c.budget)))
  · intro hb hp
    have hp4 : ("This API offers a **free tier** that meets your budget requirements.") ∈
        recommendationParts w c := by
      unfold recommendationParts
      rw [if_pos hb, if_pos hp]
      simp
    refine containsStr_join hp4 ?_
    decide

/-- Constraints selecting the Under-50 budget tier. -/
def under50Constraints : UserConstraints :=
  { budget := BudgetTier.UNDER_50, data_types := [DataType.STOCKS],
    frequency := FrequencyTier.EOD, use_case := UseCase.RESEARCH }

/-- Witness for the amended C4 at a non-Free budget. -/
theorem claim_C4_witness :
    ContainsStr (generate_verdict [freeWinner] under50Constraints).recommendation_text
      freeWinner.api.name ∧
    ContainsStr (generate_verdict [freeWinner] under50Constraints).recommendation_text
      (toString freeWinner.compatibility_percentage) ∧
    ContainsStr (generate_verdict [freeWinner] under50Constraints).recommendation_text
      (BudgetTier.value under50Constraints.budget) := by
  obtain ⟨h1, h2, h3, -⟩ := claim_C4_amended under50Constraints freeWinner []
  exact ⟨h1, h2, h3 (by decide)⟩

/-! ### Claim C3 -/

/-- The claim's qualifying-limitation predicate on the winner: reliability
below 0.70, or a TradingBot-conflicting ToS restriction for the selected
use case, or a limitation text carrying an instability phrase. -/
def qualifyingLimitation (w : APIScore) (c : UserConstraints) : Prop :=
  w.api.reliability_score < 70/100 ∨
  has_tos_restrictions_for_use_case w.api c.use_case = true ∨
  ∃ lim ∈ w.api.limitations,
    (containsKeyword lim "unofficial api" = true ∨
     containsKeyword lim "may break without notice" = true)

theorem reasons_ne_nil_iff (s : APIScore) (c : UserConstraints) :
    get_limitation_reasons s c ≠ [] ↔ qualifyingLimitation s c := by
  unfold get_limitation_reasons qualifyingLimitation LOW_RELIABILITY_THRESHOLD
  by_cases h1 : s.api.reliability_score < 70/100
  · simp [h1]
  · by_cases h2 : has_tos_restrictions_for_use_case s.api c.use_case = true
    · simp [h1, h2]
    · by_cases h3 : s.api.limitations.any
          (fun l => containsKeyword l "unofficial api" ||
            containsKeyword l "may break without notice") = true
      · simp only [h1, h2, h3, if_neg, if_pos, if_false, if_true]
        rw [List.any_eq_true] at h3
        simp only [Bool.or_eq_true] at h3
        simp [h1, h2, h3]
      · simp only [List.any_eq_true, Bool.or_eq_true] at h3
        simp [h1, h2, h3]

theorem qualifying_imp_significant (s : APIScore) (c : UserConstraints)
    (h : qualifyingLimitation s c) :
    has_significant_limitations s c = true := by
  unfold has_significant_limitations LOW_RELIABILITY_THRESHOLD
  rcases h with h | h | ⟨lim, hlim, hck⟩
  · simp [h]
  · simp [h]
  · have hany : s.api.limitations.any
        (fun l => SIGNIFICANT_LIMITATION_KEYWORDS.any (fun kw => containsKeyword l kw)) = true := by
      rw [List.any_eq_true]
      refine ⟨lim, hlim, ?_⟩
      rw [List.any_eq_true]
      rcases hck with hck | hck
      · exact ⟨"unofficial api", by simp [SIGNIFICANT_LIMITATION_KEYWORDS], hck⟩
      · exact ⟨"may break without notice", by simp [SIGNIFICANT_LIMITATION_KEYWORDS], hck⟩
    simp [hany]

theorem alternative_reason_ne_empty (w r : APIScore) (c : UserConstraints)
    (hsig : has_significant_limitations w c = true)
    (hres : get_limitation_reasons w c ≠ []) :
    (alternativeFields w (some r) c).2 ≠ "" := by
  show (alternativeFieldsSome w r c).2 ≠ ""
  unfold alternativeFieldsSome
  rw [if_pos hsig, if_pos hres]
  apply ne_empty_of_data
  repeat apply str_append_data_ne_nil_left
  decide

/-- C3: the alternative fields are populated (alternative_api with the
runner-up's name, alternative_reason non-empty) iff a runner-up exists and
the winner has a qualifying limitation; otherwise both are empty; under the
data-model invariant that names are non-empty, never exactly one of the two
is non-empty. -/
theorem claim_C3 (scores : List APIScore) (c : UserConstraints) :
    (∀ w r rest, scores = w :: r :: rest → qualifyingLimitation w c →
      (generate_verdict scores c).alternative_api = r.api.name ∧
      (generate_verdict scores c).alternative_reason ≠ "") ∧
    (∀ w r rest, scores = w :: r :: rest → ¬ qualifyingLimitation w c →
      (generate_verdict scores c).alternative_api = "" ∧
      (generate_verdict scores c).alternative_reason = "") ∧
    (scores.length < 2 →
      (generate_verdict scores c).alternative_api = "" ∧
      (generate_verdict scores c).alternative_reason = "") ∧
    ((∀ s ∈ scores, s.api.name ≠ "") →
      ((generate_verdict scores c).alternative_api = "" ↔
       (generate_verdict scores c).alternative_reason = "")) := by
  refine ⟨?_, ?_, ?_, ?_⟩
  · rintro w r rest rfl hq
    have hsig := qualifying_imp_significant w c hq
    have hres := (reasons_ne_nil_iff w c).mpr hq
    have halt : (generate_verdict (w :: r :: rest) c).alternative_api =
        (alternativeFields w (some r) c).1 := rfl
    have halt2 : (generate_verdict (w :: r :: rest) c).alternative_reason =
        (alternativeFields w (some r) c).2 := rfl
    rw [halt, halt2]
    constructor
    · show (alternativeFieldsSome w r c).1 = r.api.name
      unfold alternativeFieldsSome
      rw [if_pos hsig, if_pos hres]
    · exact alternative_reason_ne_empty w r c hsig hres
  · rintro w r rest rfl hq
    have hres : get_limitation_reasons w c = [] := by
      by_contra hcon
      exact hq ((reasons_ne_nil_iff w c).mp hcon)
    have halt : (generate_verdict (w :: r :: rest) c).alternative_api =
        (alternativeFields w (some r) c).1 := rfl
    have halt2 : (generate_verdict (w :: r :: rest) c).alternative_reason =
        (alternativeFields w (some r) c).2 := rfl
    rw [halt, halt2]
    show (alternativeFieldsSome w r c).1 = "" ∧ (alternativeFieldsSome w r c).2 = ""
    by_cases hsig : has_significant_limitations w c = true
    · unfold alternativeFieldsSome
      rw [if_pos hsig, if_neg (by simp [hres])]
      exact ⟨rfl, rfl⟩
    · unfold alternativeFieldsSome
      rw [if_neg hsig]
      exact ⟨rfl, rfl⟩
  · intro hlen
    match scores with
    | [] => exact ⟨rfl, rfl⟩
    | [w] => exact ⟨rfl, rfl⟩
    | w :: r :: rest =>
      exfalso
      simp only [List.length_cons] at hlen
      omega
  · intro hnames
    match scores with
    | [] => exact ⟨fun _ => rfl, fun _ => rfl⟩
    | [w] => exact ⟨fun _ => rfl, fun _ => rfl⟩
    | w :: r :: rest =>
      by_cases hq : qualifyingLimitation w c
      · have hsig := qualifying_imp_significant w c hq
        have hres := (reasons_ne_nil_iff w c).mpr hq
        have halt : (generate_verdict (w :: r :: rest) c).alternative_api =
            (alternativeFields w (some r) c).1 := rfl
        have halt2 : (generate_verdict (w :: r :: rest) c).alternative_reason =
            (alternativeFields w (some r) c).2 := rfl
        rw [halt, halt2]
        have hap : (alternativeFields w (some r) c).1 = r.api.name := by
          show (alternativeFieldsSome w r c).1 = r.api.name
          unfold alternativeFieldsSome
          rw [if_pos hsig, if_pos hres]
        rw [hap]
        constructor
        · intro hcon
          exact absurd hcon (hnames r (by simp))
        · intro hcon
          exact absurd hcon (alternative_reason_ne_empty w r c hsig hres)
      · have hres : get_limitation_reasons w c = [] := by
          by_contra hcon
          exact hq ((reasons_ne_nil_iff w c).mp hcon)
        have halt : (generate_verdict (w :: r :: rest) c).alternative_api =
            (alternativeFields w (some r) c).1 := rfl
        have halt2 : (generate_verdict (w :: r :: rest) c).alternative_reason =
            (alternativeFields w (some r) c).2 := rfl
        rw [halt, halt2]
        show (alternativeFieldsSome w r c).1 = "" ↔ (alternativeFieldsSome w r c).2 = ""
        by_cases hsig : has_significant_limitations w c = true
        · unfold alternativeFieldsSome
          rw [if_pos hsig, if_neg (by simp [hres])]
        · unfold alternativeFieldsSome
          rw [if_neg hsig]

/-- A low-reliability winner (0.60 < 0.70). -/
def lowRelScore : APIScore :=
  { api := { name := "L", pricing := fun _ => true, data_coverage := [],
             frequency_support := [], rate_limits := [], strengths := [],
             limitations := [], tos_restrictions := [],
             reliability_score := 60/100 },
    total_score := 50,
    category_scores := { budget := 50, data_types := 50, frequency := 50,
                         use_case := 50 },
    compatibility_percentage := 50,
    recommendation_rank := 1 }

/-- A high-reliability winner with no limitations. -/
def highRelScore : APIScore :=
  { api := { name := "H", pricing := fun _ => true, data_coverage := [],
             frequency_support := [], rate_limits := [], strengths := [],
             limitations := [], tos_restrictions := [],
             reliability_score := 90/100 },
    total_score := 80,
    category_scores := { budget := 80, data_types := 80, frequency := 80,
                         use_case := 80 },
    compatibility_percentage := 80,
    recommendation_rank := 1 }

/-- A runner-up record named "R". -/
def runnerScore : APIScore :=
  { api := { name := "R", pricing := fun _ => true, data_coverage := [],
             frequency_support := [], rate_limits := [], strengths := [],
             limitations := [], tos_restrictions := [],
             reliability_score := 95/100 },
    total_score := 40,
    category_scores := { budget := 40, data_types := 40, frequency := 40,
                         use_case := 40 },
    compatibility_percentage := 40,
    recommendation_rank := 2 }

/-- Witness for C3: a low-reliability winner with a runner-up populates
both fields; a clean winner with a runner-up leaves both empty. -/
theorem claim_C3_witness :
    (generate_verdict [lowRelScore, runnerScore] freeStocksEodResearch).alternative_api =
      "R" ∧
    (generate_verdict [lowRelScore, runnerScore] freeStocksEodResearch).alternative_reason ≠
      "" ∧
    (generate_verdict [highRelScore, runnerScore] freeStocksEodResearch).alternative_api =
      "" ∧
    (generate_verdict [highRelScore, runnerScore] freeStocksEodResearch).alternative_reason =
      "" := by
  have hq : qualifyingLimitation lowRelScore freeStocksEodResearch := by
    left
    norm_num [lowRelScore]
  have hnq : ¬ qualifyingLimitation highRelScore freeStocksEodResearch := by
    intro h
    rcases h with h | h | ⟨lim, hlim, -⟩
    · norm_num [highRelScore] at h
    · simp [has_tos_restrictions_for_use_case, freeStocksEodResearch] at h
    · simp [highRelScore] at hlim
  obtain ⟨hpop, -, -, -⟩ := claim_C3 [lowRelScore, runnerScore] freeStocksEodResearch
  obtain ⟨-, hemp, -, -⟩ := claim_C3 [highRelScore, runnerScore] freeStocksEodResearch
  obtain ⟨h1, h2⟩ := hpop lowRelScore runnerScore [] rfl hq
  obtain ⟨h3, h4⟩ := hemp highRelScore runnerScore [] rfl hnq
  exact ⟨h1, h2, h3, h4⟩

end FinRef
